import Mathlib

/-!
Verification of the Printer Manager (`manager/printermanager.go`) of the
cloud-print-connector repository, as a shallow embedding in Lean 4.

Go strings are `String`; Go maps keyed by strings are association lists with
an overwrite-on-insert operation mirroring Go map assignment; external calls
into the LPS (CUPS) and RPS (GCP) clients are oracles (`Except` results passed
in as inputs); effects of a run (RPS `Control` reports, counter increments,
semaphore operations, temp-file operations, LPS `Print` submission) are
recorded in an explicit action trace.
-/

namespace CloudPrintConnector

/-! ### Data model -/

/-- `lib.Printer`, restricted to the fields the manager reads or writes:
local name, remote id (`GCPID`), capabilities hash, and the per-printer
`CUPSJobSemaphore` abstracted to its current count and its capacity. -/
structure Printer where
  name : String
  gcpID : String
  capsHash : String
  cupsJobSemCount : Nat
  cupsJobSemCapacity : Nat
deriving DecidableEq

/-- The Go zero value `lib.Printer{}` sent by `applyDiff` on its empty-emission
paths: every string field is `""`, numeric fields are `0`. -/
def emptyPrinter : Printer :=
  { name := "", gcpID := "", capsHash := "", cupsJobSemCount := 0, cupsJobSemCapacity := 0 }

/-- `lib.Job`: the job descriptor consumed by `processJob`. -/
structure Job where
  gcpJobID : String
  gcpPrinterID : String
  ticketURL : String
  fileURL : String
  ownerID : String
deriving DecidableEq

/-- Modelled from the spec: the cross-domain job status set. `lib` is not part
of the core source; the spec fixes the codomain of the LPS-status projection to
the finite set with members InProgress, Done and Error, of which only the last
two are terminal. -/
inductive GCPStatus where
  | jobInProgress
  | jobDone
  | jobError
deriving DecidableEq

/-- Modelled from the spec: the string constants `lib.JobInProgress`,
`lib.JobDone`, `lib.JobError` that `GCPStatus()` projections and `Control`
calls use. Their exact spellings are irrelevant; the development only uses
that they are pairwise distinct and nonempty. -/
def gcpStatusStr : GCPStatus → String
  | .jobInProgress => "IN_PROGRESS"
  | .jobDone => "DONE"
  | .jobError => "ERROR"

/-- The registry type of `gcpPrintersByGCPID`: a string-keyed Go map,
modelled as an association list. -/
abbrev Registry := List (String × Printer)

/-- Go map read `m[k]` together with its `exists` flag. -/
def regLookup : Registry → String → Option Printer
  | [], _ => none
  | (k, v) :: rest, key => if k = key then some v else regLookup rest key

/-- Go map assignment `m[k] = v`: overwrite the binding if the key is present,
append it otherwise. -/
def regInsert : Registry → String → Printer → Registry
  | [], key, v => [(key, v)]
  | (k, w) :: rest, key, v =>
      if k = key then (key, v) :: rest else (k, w) :: regInsert rest key v

/-! ### Stats aggregator (`incrementJobsProcessed`, `GetJobStats`) -/

/-- The mutable manager state read by the stats aggregator: the registry and
the two counters guarded by `jobStatsSemaphore`. -/
structure PMState where
  gcpPrintersByGCPID : Registry
  jobsDone : Nat
  jobsError : Nat
deriving DecidableEq

/-- `incrementJobsProcessed`: under the stats mutex, add one to `jobsDone` on
success and to `jobsError` otherwise. -/
def incrementJobsProcessed (pm : PMState) (success : Bool) : PMState :=
  if success then
    { pm with jobsDone := pm.jobsDone + 1 }
  else
    { pm with jobsError := pm.jobsError + 1 }

/-- `GetJobStats`: `var processed, processing uint` declares both as zero;
the loop accumulates only `processing` from the per-printer semaphore counts,
and the function returns `processed` still at its zero value — the source
never reads `jobsDone` or `jobsError` here. -/
def GetJobStats (pm : PMState) : Nat × Nat :=
  let processed : Nat := 0
  let processing : Nat :=
    pm.gcpPrintersByGCPID.foldl (fun acc e => acc + e.2.cupsJobSemCount) 0
  (processed, processing)

/-! ### Username projection -/

/-- Go `strings.Split` on a single-character separator, on the underlying
character list: splits at every occurrence of `sep`, always returning at
least one (possibly empty) segment. -/
def goStringsSplit : List Char → Char → List (List Char)
  | [], _ => [[]]
  | c :: rest, sep =>
      if c = sep then
        [] :: goStringsSplit rest sep
      else
        match goStringsSplit rest sep with
        | [] => [[c]]
        | seg :: segs => (c :: seg) :: segs

/-- `strings.Split(ownerID, "@")[0]`, as a `String` operation. -/
def splitOwner (owner : String) : String :=
  ((goStringsSplit owner.data '@').headD []).asString

/-- The owner identifier `processJob` passes to `cups.Print`:
`ownerID := job.OwnerID; if !pm.jobFullUsername { ownerID = strings.Split(ownerID, "@")[0] }`. -/
def ownerProjected (jobFullUsername : Bool) (owner : String) : String :=
  if jobFullUsername then owner else splitOwner owner

/-! ### Job execution pipeline (`processJob`) -/

/-- Observable actions of one `processJob` invocation, in program order:
`gcp.Control` reports, `incrementJobsProcessed` calls, download-semaphore
operations, per-printer `CUPSJobSemaphore` operations (present in the action
alphabet so their absence from traces can be stated), closing and removing the
temp file, and the `cups.Print` submission. -/
inductive Act where
  | control (jobID status message : String)
  | incr (success : Bool)
  | downloadAcquire
  | downloadRelease
  | printerSemAcquire (gcpPrinterID : String)
  | printerSemRelease (gcpPrinterID : String)
  | closeFile (path : String)
  | removeTempFile (path : String)
  | print (printerName path title owner options : String)
deriving DecidableEq

/-- Which exit a `processJob` invocation took. `stillPolling` is the
non-terminated case in which the observation list ran out while every
projection was still InProgress (in the source: the poll loop keeps ticking). -/
inductive ExitPath where
  | stillPolling
  | unknownPrinter
  | ticketFail
  | tempFileFail
  | downloadFail
  | printFail
  | statusQueryFail
  | terminal (s : GCPStatus)
deriving DecidableEq

deriving instance DecidableEq for Except

/-- One `cups.GetJobStatus` observation: an error, or the projected
cross-domain status paired with the accompanying message. -/
abbrev PollObs := Except String (GCPStatus × String)

/-- The oracle inputs of one `processJob` invocation: the registry snapshot
and the configured username flag read from the manager, and the outcomes of
the external calls the invocation makes, in the order it makes them. -/
structure Env where
  gcpPrintersByGCPID : Registry
  jobFullUsername : Bool
  ticketResult : Except String String
  tempFileResult : Except String String
  downloadResult : Except String Unit
  printResult : Except String Nat
  statuses : List PollObs
deriving DecidableEq

/-- The `Control` report (if any) of one poll iteration: the body of
`if latestStatus.GCPStatus() != status || latestMessage != message`, which
reports the newly projected pair exactly when it differs from the last
reported one. -/
def reportActs (jobID status message : String) (latestStatus : GCPStatus)
    (latestMessage : String) : List Act :=
  if gcpStatusStr latestStatus ≠ status ∨ latestMessage ≠ message then
    [Act.control jobID (gcpStatusStr latestStatus) latestMessage]
  else
    []

/-- The status polling loop of `processJob` (the `for _ = range time.Tick`
body): at each tick query `GetJobStatus`; on error report `JobError` and count
an errored job; otherwise report the projected pair when it differs from the
last reported pair (initially the two empty strings) and stop — counting a
done or an errored job — at the first non-InProgress projection. On a report
the loop's `status`/`message` variables are set to the projected pair; when no
report happens they already equal it, so the recursive call below passes the
projected pair in either case. -/
def pollLoop (jobID : String) (cupsJobID : Nat) (status message : String) :
    List PollObs → List Act × ExitPath
  | [] => ([], .stillPolling)
  | .error e :: _ =>
      ([.control jobID (gcpStatusStr .jobError)
          ("Failed to get status of CUPS job " ++ toString cupsJobID ++ ": " ++ e),
        .incr false], .statusQueryFail)
  | .ok (latestStatus, latestMessage) :: rest =>
      if latestStatus ≠ .jobInProgress then
        (reportActs jobID status message latestStatus latestMessage
           ++ [.incr (latestStatus = .jobDone)], .terminal latestStatus)
      else
        let r := pollLoop jobID cupsJobID (gcpStatusStr latestStatus) latestMessage rest
        (reportActs jobID status message latestStatus latestMessage ++ r.1, r.2)

/-- `processJob`: printer lookup, ticket fetch, temp-file creation, download
under the global download semaphore, file close with deferred temp-file
removal, username projection, `cups.Print` submission, then the status polling
loop. The deferred `os.Remove` is installed only after the download succeeds,
so it appears at the end of exactly the traces of paths that return after that
point; the `stillPolling` trace is a prefix of a run that has not returned, so
the deferred removal has not executed in it. -/
def processJob (env : Env) (job : Job) : List Act × ExitPath :=
  match regLookup env.gcpPrintersByGCPID job.gcpPrinterID with
  | none =>
      ([.control job.gcpJobID (gcpStatusStr .jobError)
          ("Failed to find GCP printer " ++ job.gcpPrinterID ++ " for job " ++ job.gcpJobID),
        .incr false], .unknownPrinter)
  | some printer =>
    match env.ticketResult with
    | .error e =>
        ([.control job.gcpJobID (gcpStatusStr .jobError)
            ("Failed to get a ticket for job " ++ job.gcpJobID ++ ": " ++ e),
          .incr false], .ticketFail)
    | .ok options =>
      match env.tempFileResult with
      | .error e =>
          ([.control job.gcpJobID (gcpStatusStr .jobError)
              ("Failed to create a temporary file for job " ++ job.gcpJobID ++ ": " ++ e),
            .incr false], .tempFileFail)
      | .ok pdfPath =>
        match env.downloadResult with
        | .error e =>
            ([.downloadAcquire, .downloadRelease,
              .control job.gcpJobID (gcpStatusStr .jobError)
                ("Failed to download PDF for job " ++ job.gcpJobID ++ ": " ++ e),
              .incr false], .downloadFail)
        | .ok _ =>
          let ownerID := ownerProjected env.jobFullUsername job.ownerID
          match env.printResult with
          | .error e =>
              ([.downloadAcquire, .downloadRelease, .closeFile pdfPath,
                .control job.gcpJobID (gcpStatusStr .jobError)
                  ("Failed to send job " ++ job.gcpJobID ++ " to CUPS: " ++ e),
                .incr false, .removeTempFile pdfPath], .printFail)
          | .ok cupsJobID =>
              let r := pollLoop job.gcpJobID cupsJobID "" "" env.statuses
              ([.downloadAcquire, .downloadRelease, .closeFile pdfPath,
                .print printer.name pdfPath ("gcp:" ++ job.gcpJobID) ownerID options]
                 ++ r.1
                 ++ (if r.2 = .stillPolling then [] else [.removeTempFile pdfPath]),
               r.2)

/-- The `(status, message)` pairs of the `Control` reports in a trace. -/
def controlsOf : List Act → List (String × String)
  | [] => []
  | .control _ s m :: rest => (s, m) :: controlsOf rest
  | _ :: rest => controlsOf rest

/-- The arguments of the `incrementJobsProcessed` calls in a trace. -/
def incrementsOf : List Act → List Bool
  | [] => []
  | .incr b :: rest => b :: incrementsOf rest
  | _ :: rest => incrementsOf rest

/-- Modelled from the spec: the sequence of `(status, message)` pairs the
polling stage reports, given the last reported pair and the projected LPS
observations — report the new pair exactly when it differs from the last
reported one, and stop at the first non-InProgress projection. Used as the
specification side of the report-deduplication refinement. -/
def specReportSequence : String × String → List (GCPStatus × String) → List (String × String)
  | _, [] => []
  | (s, m), (st, msg) :: rest =>
      let pair := (gcpStatusStr st, msg)
      if pair ≠ (s, m) then
        pair :: (if st = .jobInProgress then specReportSequence pair rest else [])
      else
        if st = .jobInProgress then specReportSequence (s, m) rest else []

/-! ### Printer reconciler (`applyDiff`, `syncPrinters`) -/

/-- `lib.PrinterDiff.Operation`. -/
inductive DiffOp where
  | registerPrinter
  | updatePrinter
  | deletePrinter
  | leavePrinter
deriving DecidableEq

/-- `lib.PrinterDiff`: operation tag, the printer acted on, and the
caps-hash-changed flag consulted by the update branch. -/
structure PrinterDiff where
  operation : DiffOp
  printer : Printer
  capsHashChanged : Bool
deriving DecidableEq

/-- Oracle outcomes of the external calls one `applyDiff` invocation may make.
`registerResult` carries, on success, the remote id that `gcp.Register`
populates into the printer (the spec: `Register` populates `remote-id` on
success; `gcp` is not part of the core source). -/
structure DiffEnv where
  getPPD : Except String String
  registerResult : Except String String
  canShare : Bool
  shareResult : Except String Unit
  updateResult : Except String Unit
  deleteResult : Except String Unit
deriving DecidableEq

/-- `applyDiff`, returning the printer value the invocation sends on the
rendezvous channel. Register: on `GetPPD` or `Register` failure fall through
to the empty send; on success (sharing failure being non-fatal) reset the
per-printer semaphore to capacity `cupsQueueSize` and send the registered
printer. Update: always send `diff.Printer` (a `GetPPD` failure returns early
with it; otherwise `Update` failure is only logged). Delete: fall through to
the empty send on failure and on success alike. Leave: send the printer
unchanged. -/
def applyDiff (cupsQueueSize : Nat) (env : DiffEnv) (diff : PrinterDiff) : Printer :=
  match diff.operation with
  | .registerPrinter =>
      match env.getPPD with
      | .error _ => emptyPrinter
      | .ok _ =>
        match env.registerResult with
        | .error _ => emptyPrinter
        | .ok assignedGCPID =>
            { diff.printer with
                gcpID := assignedGCPID,
                cupsJobSemCount := 0,
                cupsJobSemCapacity := cupsQueueSize }
  | .updatePrinter => diff.printer
  | .deletePrinter => emptyPrinter
  | .leavePrinter => diff.printer

/-- The result-collection loop of `syncPrinters`: starting from the fresh
empty map `currentPrinters`, insert each collected printer whose `Name` is
nonempty under its `GCPID` key. -/
def buildRegistry (results : List Printer) : Registry :=
  results.foldl (fun acc p => if p.name = "" then acc else regInsert acc p.gcpID p) []

/-- One `syncPrinters` pass over its oracle inputs: on a `GetPrinters` error
the registry is left untouched; on a `nil` diff list likewise; otherwise every
diff is dispatched to `applyDiff` (each with its own external-call outcomes)
and the registry is replaced by the map built from the nonempty results. -/
def syncPrinters (cupsQueueSize : Nat) (registry : Registry)
    (cupsResult : Except String (List Printer))
    (diffs : Option (List (PrinterDiff × DiffEnv))) : Registry :=
  match cupsResult with
  | .error _ => registry
  | .ok _ =>
    match diffs with
    | none => registry
    | some ds =>
        buildRegistry (ds.map fun de => applyDiff cupsQueueSize de.2 de.1)

/-! ### Intake producer (`listenGCPJobs`, inner goroutine)

`for _, job := range jobs { ch <- &job }` ranges with a single loop variable
`job` (one memory cell for the whole loop, as in Go versions of this
codebase's era): each iteration overwrites that cell with the next element and
sends the cell's address, so every send of a batch carries the same address.
`batchSend` models the cell explicitly: it returns the value the cell held at
each send (the reference's target at send time) and the value the cell holds
once the producer has advanced past the batch — which is what a reader of any
of the batch's references observes from then on. -/

/-- The producer's per-batch send loop over the single range-variable cell. -/
def batchSend : List Job → Job → List Job × Job
  | [], cell => ([], cell)
  | j :: rest, _ =>
      let r := batchSend rest j
      (j :: r.1, r.2)

/-! ### Reconciler loop and stop handshake (`syncPrintersPeriodically`, `Quit`) -/

/-- One select-loop arrival in `syncPrintersPeriodically`: a timer tick or a
value on `printerPollQuit`. -/
inductive ReconcilerEvent where
  | tick
  | stop
deriving DecidableEq

/-- Observable actions of the reconciler loop: one reconciliation pass, or the
acknowledgement echoed on `printerPollQuit` just before the loop returns. -/
inductive ReconcilerAct where
  | syncPass
  | ackQuit
deriving DecidableEq

/-- `syncPrintersPeriodically` as a function of its select-loop arrivals, in
arrival order: a tick runs one pass and loops; a stop echoes the
acknowledgement and returns, so later arrivals are never examined. -/
def syncPrintersPeriodically : List ReconcilerEvent → List ReconcilerAct
  | [] => []
  | .tick :: rest => .syncPass :: syncPrintersPeriodically rest
  | .stop :: _ => [.ackQuit]

/-- Operations on the manager's two stop channels. -/
inductive ChanOp where
  | sendPrinterPollQuit
  | recvPrinterPollQuit
  | sendGcpJobPollQuit
  | recvGcpJobPollQuit
deriving DecidableEq

/-- `Quit`'s channel operations, in program order: send on `printerPollQuit`,
then receive the echoed acknowledgement from it. The send pairs with the
reconciler loop's `.stop` reception and the receive with its `.ackQuit`
echo, so `Quit` returns only once the loop has taken its stop branch. `Quit`
touches no other channel. -/
def Quit : List ChanOp := [.sendPrinterPollQuit, .recvPrinterPollQuit]

/-! ### Intake consumer (`listenGCPJobs`, select loop) -/

/-- One select-loop arrival in the intake consumer: a job delivered by the
producer, or a value on `gcpJobPollQuit`. -/
inductive IntakeEvent where
  | jobArrives (j : Job)
  | stopSignal
deriving DecidableEq

/-- The intake consumer as a function of its select-loop arrivals: a job spawns
a `processJob` pipeline and loops; a stop signal echoes the acknowledgement
(the `true` component of the result) and returns. The first component lists
the jobs for which a pipeline was spawned, in arrival order. -/
def listenGCPJobs : List IntakeEvent → List Job × Bool
  | [] => ([], false)
  | .jobArrives j :: rest =>
      let r := listenGCPJobs rest
      (j :: r.1, r.2)
  | .stopSignal :: _ => ([], true)

/-- The jobs delivered by the producer in an arrival list. -/
def intakeJobs : List IntakeEvent → List Job
  | [] => []
  | .jobArrives j :: rest => j :: intakeJobs rest
  | .stopSignal :: rest => intakeJobs rest

/-! ### Concrete instances used by witnesses and counterexamples -/

/-- Whether an action is an operation on a per-printer `CUPSJobSemaphore`. -/
def Act.isPrinterSemOp : Act → Bool
  | .printerSemAcquire _ => true
  | .printerSemRelease _ => true
  | _ => false

/-- Whether an action removes a temp file. -/
def Act.isRemove : Act → Bool
  | .removeTempFile _ => true
  | _ => false

/-- A registered printer as it sits in the registry. -/
def exPrinter : Printer :=
  { name := "HP", gcpID := "r7", capsHash := "h1", cupsJobSemCount := 2, cupsJobSemCapacity := 3 }

/-- A job addressed to `exPrinter`. -/
def exJob : Job :=
  { gcpJobID := "j1", gcpPrinterID := "r7", ticketURL := "t1", fileURL := "f1",
    ownerID := "alice@corp" }

/-- A second, distinct job for the batch-aliasing counterexample. -/
def exJobB : Job :=
  { gcpJobID := "j2", gcpPrinterID := "r7", ticketURL := "t2", fileURL := "f2",
    ownerID := "bob@corp" }

/-- The range variable's arbitrary value before the batch loop runs. -/
def exJobZero : Job :=
  { gcpJobID := "", gcpPrinterID := "", ticketURL := "", fileURL := "", ownerID := "" }

/-- Oracles for a happy-path `processJob` run: every external call succeeds and
the second status observation is terminal Done. -/
def exEnvOk : Env :=
  { gcpPrintersByGCPID := [("r7", exPrinter)], jobFullUsername := false,
    ticketResult := .ok "opts", tempFileResult := .ok "/tmp/pdf1",
    downloadResult := .ok (), printResult := .ok 5,
    statuses := [.ok (.jobInProgress, "q"), .ok (.jobDone, "")] }

/-- Oracles for a run in which the temp file is created but the payload
download fails. -/
def exEnvDl : Env :=
  { gcpPrintersByGCPID := [("r7", exPrinter)], jobFullUsername := false,
    ticketResult := .ok "opts", tempFileResult := .ok "/tmp/pdf2",
    downloadResult := .error "connection reset", printResult := .ok 5,
    statuses := [] }

/-- A Register diff for a locally discovered printer (no remote id yet). -/
def exDiffReg : PrinterDiff :=
  { operation := .registerPrinter,
    printer := { name := "HP", gcpID := "", capsHash := "h1",
                 cupsJobSemCount := 0, cupsJobSemCapacity := 0 },
    capsHashChanged := false }

/-- A Delete diff for `exPrinter`, whose RPS delete call fails. -/
def exDiffDel : PrinterDiff :=
  { operation := .deletePrinter, printer := exPrinter, capsHashChanged := false }

/-- External-call outcomes for the Register diff: everything succeeds and RPS
assigns remote id `rNew`. -/
def exEnvReg : DiffEnv :=
  { getPPD := .ok "ppd", registerResult := .ok "rNew", canShare := true,
    shareResult := .ok (), updateResult := .ok (), deleteResult := .ok () }

/-- External-call outcomes for the Delete diff: the RPS delete fails. -/
def exEnvDel : DiffEnv :=
  { getPPD := .ok "", registerResult := .ok "", canShare := false,
    shareResult := .ok (), updateResult := .ok (), deleteResult := .error "gone" }

/-- A two-diff reconciliation pass: one successful Register, one Delete. -/
def exDiffs : List (PrinterDiff × DiffEnv) := [(exDiffReg, exEnvReg), (exDiffDel, exEnvDel)]

/-- Manager state after one successful job: `jobsDone = 1`, `jobsError = 0`. -/
def statsState : PMState :=
  { gcpPrintersByGCPID := [("r7", exPrinter)], jobsDone := 1, jobsError := 0 }

/-! ### Helper lemmas -/

theorem goStringsSplit_ne_nil (l : List Char) (sep : Char) : goStringsSplit l sep ≠ [] := by
  induction l with
  | nil => simp [goStringsSplit]
  | cons c rest ih =>
      by_cases h : c = sep
      · simp [goStringsSplit, h]
      · simp only [goStringsSplit, if_neg h]
        cases hg : goStringsSplit rest sep with
        | nil => simp
        | cons seg segs => simp

theorem goStringsSplit_headD (l : List Char) (sep : Char) :
    (goStringsSplit l sep).headD [] = l.takeWhile (fun c => c ≠ sep) := by
  induction l with
  | nil => rfl
  | cons c rest ih =>
      by_cases h : c = sep
      · simp [goStringsSplit, h, List.takeWhile_cons]
      · simp only [goStringsSplit, if_neg h]
        cases hg : goStringsSplit rest sep with
        | nil => exact absurd hg (goStringsSplit_ne_nil rest sep)
        | cons seg segs =>
            have hseg : seg = rest.takeWhile (fun c => c ≠ sep) := by
              have h2 := ih
              rw [hg] at h2
              simpa using h2
            simp [List.takeWhile_cons, h, hseg]

theorem mem_reportActs {jid s m lm : String} {ls : GCPStatus} {a : Act}
    (ha : a ∈ reportActs jid s m ls lm) : a = Act.control jid (gcpStatusStr ls) lm := by
  unfold reportActs at ha
  split at ha
  · simpa using ha
  · simp at ha

/-- Every action the polling loop emits is a `Control` report or a counter
increment; in particular the loop touches no semaphore, file or printer. -/
theorem pollLoop_act_shape (obs : List PollObs) (jid : String) (cid : Nat) (s m : String)
    (a : Act) (ha : a ∈ (pollLoop jid cid s m obs).1) :
    (∃ x y z, a = Act.control x y z) ∨ ∃ b, a = Act.incr b := by
  induction obs generalizing s m with
  | nil => simp [pollLoop] at ha
  | cons o rest ih =>
      match o with
      | .error e =>
          simp only [pollLoop, List.mem_cons, List.not_mem_nil, or_false] at ha
          rcases ha with h | h
          · exact Or.inl ⟨_, _, _, h⟩
          · exact Or.inr ⟨_, h⟩
      | .ok (ls, lm) =>
          by_cases hip : ls = GCPStatus.jobInProgress
          · rw [pollLoop, if_neg (by simp [hip])] at ha
            rcases List.mem_append.mp ha with h | h
            · exact Or.inl ⟨_, _, _, mem_reportActs h⟩
            · exact ih _ _ h
          · rw [pollLoop, if_pos hip] at ha
            rcases List.mem_append.mp ha with h | h
            · exact Or.inl ⟨_, _, _, mem_reportActs h⟩
            · exact Or.inr ⟨_, by simpa using h⟩

/-- The increment expected from a pipeline, by exit: none while still polling,
`true` exactly on the terminal Done projection, `false` on every other
terminating path. -/
def expectedIncrements : ExitPath → List Bool
  | .stillPolling => []
  | .terminal s => [decide (s = .jobDone)]
  | _ => [false]

theorem incrementsOf_append (xs ys : List Act) :
    incrementsOf (xs ++ ys) = incrementsOf xs ++ incrementsOf ys := by
  induction xs with
  | nil => rfl
  | cons x rest ih => cases x <;> simp [incrementsOf, ih]

theorem incrementsOf_reportActs (jid s m lm : String) (ls : GCPStatus) :
    incrementsOf (reportActs jid s m ls lm) = [] := by
  unfold reportActs
  split <;> rfl

theorem pollLoop_exit_shape (obs : List PollObs) (jid : String) (cid : Nat) (s m : String) :
    (pollLoop jid cid s m obs).2 = .stillPolling
  ∨ (pollLoop jid cid s m obs).2 = .statusQueryFail
  ∨ ∃ st, st ≠ GCPStatus.jobInProgress ∧ (pollLoop jid cid s m obs).2 = .terminal st := by
  induction obs generalizing s m with
  | nil => exact Or.inl rfl
  | cons o rest ih =>
      match o with
      | .error e => exact Or.inr (Or.inl rfl)
      | .ok (ls, lm) =>
          by_cases hip : ls = GCPStatus.jobInProgress
          · rw [pollLoop, if_neg (by simp [hip])]
            exact ih _ _
          · rw [pollLoop, if_pos hip]
            exact Or.inr (Or.inr ⟨ls, hip, rfl⟩)

theorem pollLoop_increments (obs : List PollObs) (jid : String) (cid : Nat) (s m : String) :
    incrementsOf (pollLoop jid cid s m obs).1
      = expectedIncrements (pollLoop jid cid s m obs).2 := by
  induction obs generalizing s m with
  | nil => rfl
  | cons o rest ih =>
      match o with
      | .error e => rfl
      | .ok (ls, lm) =>
          by_cases hip : ls = GCPStatus.jobInProgress
          · rw [pollLoop, if_neg (by simp [hip])]
            show incrementsOf (reportActs jid s m ls lm
                ++ (pollLoop jid cid (gcpStatusStr ls) lm rest).1)
              = expectedIncrements (pollLoop jid cid (gcpStatusStr ls) lm rest).2
            rw [incrementsOf_append, incrementsOf_reportActs, List.nil_append]
            exact ih _ _
          · rw [pollLoop, if_pos hip]
            show incrementsOf (reportActs jid s m ls lm ++ [.incr (decide (ls = .jobDone))])
              = expectedIncrements (.terminal ls)
            rw [incrementsOf_append, incrementsOf_reportActs, List.nil_append]
            rfl

theorem incrementJobsProcessed_mono (pm : PMState) (b : Bool) :
    pm.jobsDone ≤ (incrementJobsProcessed pm b).jobsDone
  ∧ pm.jobsError ≤ (incrementJobsProcessed pm b).jobsError := by
  cases b <;> simp [incrementJobsProcessed]

theorem foldl_increment_mono (bs : List Bool) (pm : PMState) :
    pm.jobsDone ≤ (bs.foldl incrementJobsProcessed pm).jobsDone
  ∧ pm.jobsError ≤ (bs.foldl incrementJobsProcessed pm).jobsError := by
  induction bs generalizing pm with
  | nil => exact ⟨le_refl _, le_refl _⟩
  | cons b rest ih =>
      have h1 := incrementJobsProcessed_mono pm b
      have h2 := ih (incrementJobsProcessed pm b)
      exact ⟨h1.1.trans h2.1, h1.2.trans h2.2⟩

/-- Whether a poll observation is a successful query whose projection is still
InProgress. -/
def isInProgressObs : PollObs → Bool
  | .ok (st, _) => st = .jobInProgress
  | .error _ => false

theorem controlsOf_append (xs ys : List Act) :
    controlsOf (xs ++ ys) = controlsOf xs ++ controlsOf ys := by
  induction xs with
  | nil => rfl
  | cons x rest ih => cases x <;> simp [controlsOf, ih]

theorem controlsOf_reportActs (jid s m lm : String) (ls : GCPStatus) :
    controlsOf (reportActs jid s m ls lm)
      = if gcpStatusStr ls ≠ s ∨ lm ≠ m then [(gcpStatusStr ls, lm)] else [] := by
  unfold reportActs
  split
  · simp_all [controlsOf]
  · simp_all [controlsOf]

theorem gcpStatusStr_ne_empty (st : GCPStatus) : gcpStatusStr st ≠ "" := by
  cases st <;> simp [gcpStatusStr]

theorem controlsOf_singleton_incr (b : Bool) : controlsOf [Act.incr b] = [] := rfl

theorem pollLoop_controls_spec (obs : List (GCPStatus × String)) (jid : String) (cid : Nat)
    (s m : String) :
    controlsOf (pollLoop jid cid s m (obs.map Except.ok)).1 = specReportSequence (s, m) obs := by
  induction obs generalizing s m with
  | nil => rfl
  | cons p rest ih =>
      obtain ⟨ls, lm⟩ := p
      have hcond : ((gcpStatusStr ls, lm) ≠ (s, m)) ↔ (gcpStatusStr ls ≠ s ∨ lm ≠ m) := by
        rw [ne_eq, Prod.mk.injEq (gcpStatusStr ls) lm s m, not_and_or, ← ne_eq, ← ne_eq]
      by_cases hip : ls = GCPStatus.jobInProgress
      · rw [List.map_cons, pollLoop, if_neg (by simp [hip])]
        show controlsOf (reportActs jid s m ls lm
            ++ (pollLoop jid cid (gcpStatusStr ls) lm (rest.map Except.ok)).1)
          = specReportSequence (s, m) ((ls, lm) :: rest)
        rw [controlsOf_append, controlsOf_reportActs, ih]
        simp only [specReportSequence]
        by_cases hpair : (gcpStatusStr ls, lm) = (s, m)
        · rw [if_neg (fun h => (hcond.mpr h) hpair), if_neg (fun h => h hpair),
            if_pos hip, List.nil_append, hpair]
        · rw [if_pos (hcond.mp hpair), if_pos hpair, if_pos hip, List.singleton_append]
      · rw [List.map_cons, pollLoop, if_pos hip]
        show controlsOf (reportActs jid s m ls lm ++ [.incr (decide (ls = .jobDone))])
          = specReportSequence (s, m) ((ls, lm) :: rest)
        rw [controlsOf_append, controlsOf_singleton_incr, List.append_nil,
          controlsOf_reportActs]
        simp only [specReportSequence]
        by_cases hpair : (gcpStatusStr ls, lm) = (s, m)
        · rw [if_neg (fun h => (hcond.mpr h) hpair), if_neg (fun h => h hpair), if_neg hip]
        · rw [if_pos (hcond.mp hpair), if_pos hpair, if_neg hip]

theorem specReportSequence_first (st : GCPStatus) (msg : String)
    (tl : List (GCPStatus × String)) :
    specReportSequence ("", "") ((st, msg) :: tl) ≠ [] := by
  rw [specReportSequence,
    if_pos (fun h => gcpStatusStr_ne_empty st (congrArg Prod.fst h))]
  simp

theorem mem_dropLast_cons {α : Type} {p c : α} {l : List α}
    (h : c ∈ (p :: l).dropLast) : c = p ∨ c ∈ l.dropLast := by
  cases l with
  | nil => simp at h
  | cons q l' =>
      rw [List.dropLast_cons₂] at h
      exact List.mem_cons.mp h

theorem pollLoop_controls_dropLast (obs : List PollObs) (jid : String) (cid : Nat)
    (s m : String) :
    ∀ c ∈ (controlsOf (pollLoop jid cid s m obs).1).dropLast,
      c.1 = gcpStatusStr .jobInProgress := by
  induction obs generalizing s m with
  | nil => intro c hc; simp [pollLoop, controlsOf] at hc
  | cons o rest ih =>
      intro c hc
      match o with
      | .error e => simp [pollLoop, controlsOf] at hc
      | .ok (ls, lm) =>
          by_cases hip : ls = GCPStatus.jobInProgress
          · rw [pollLoop, if_neg (by simp [hip])] at hc
            have hc2 : c ∈ (controlsOf (reportActs jid s m ls lm
                ++ (pollLoop jid cid (gcpStatusStr ls) lm rest).1)).dropLast := hc
            rw [controlsOf_append, controlsOf_reportActs] at hc2
            by_cases hrep : gcpStatusStr ls ≠ s ∨ lm ≠ m
            · rw [if_pos hrep, List.singleton_append] at hc2
              rcases mem_dropLast_cons hc2 with rfl | hc3
              · rw [hip]
              · exact ih _ _ c hc3
            · rw [if_neg hrep, List.nil_append] at hc2
              exact ih _ _ c hc2
          · rw [pollLoop, if_pos hip] at hc
            have hc2 : c ∈ (controlsOf (reportActs jid s m ls lm
                ++ [.incr (decide (ls = .jobDone))])).dropLast := hc
            rw [controlsOf_append] at hc2
            have hnil : controlsOf [Act.incr (decide (ls = .jobDone))] = [] := rfl
            rw [hnil, List.append_nil, controlsOf_reportActs] at hc2
            by_cases hrep : gcpStatusStr ls ≠ s ∨ lm ≠ m
            · rw [if_pos hrep] at hc2
              simp at hc2
            · rw [if_neg hrep] at hc2
              simp at hc2

theorem pollLoop_stops_at_first_terminal (pre : List PollObs) (x : PollObs)
    (rest : List PollObs) (jid : String) (cid : Nat) :
    ∀ s m, (∀ o ∈ pre, isInProgressObs o = true) → isInProgressObs x = false →
      pollLoop jid cid s m (pre ++ x :: rest) = pollLoop jid cid s m (pre ++ [x]) := by
  induction pre with
  | nil =>
      intro s m _ hx
      match x with
      | .error e => rfl
      | .ok (ls, lm) =>
          have hip : ls ≠ GCPStatus.jobInProgress := by
            simpa [isInProgressObs] using hx
          rw [List.nil_append, List.nil_append, pollLoop, pollLoop, if_pos hip, if_pos hip]
  | cons o pre' ih =>
      intro s m hpre hx
      have ho := hpre o (List.mem_cons_self _ _)
      match o with
      | .ok (ls, lm) =>
          have hip : ls = GCPStatus.jobInProgress := by
            simpa [isInProgressObs] using ho
          rw [List.cons_append, List.cons_append, pollLoop, pollLoop,
            if_neg (by simp [hip]), if_neg (by simp [hip]),
            ih (gcpStatusStr ls) lm (fun o' ho' => hpre o' (List.mem_cons_of_mem _ ho')) hx]
      | .error e => simp [isInProgressObs] at ho

/-- The remote ids of the non-empty results of a reconciliation pass, in
collection order. -/
def idsOfNonEmpty : List Printer → List String
  | [] => []
  | p :: rest => if p.name = "" then idsOfNonEmpty rest else p.gcpID :: idsOfNonEmpty rest

/-- `buildRegistry`, generalized over the accumulator map for induction. -/
def buildRegistryFrom (acc : Registry) (results : List Printer) : Registry :=
  results.foldl (fun acc p => if p.name = "" then acc else regInsert acc p.gcpID p) acc

theorem buildRegistry_eq_from (results : List Printer) :
    buildRegistry results = buildRegistryFrom [] results := rfl

theorem regLookup_regInsert_self (acc : Registry) (k : String) (v : Printer) :
    regLookup (regInsert acc k v) k = some v := by
  induction acc with
  | nil => simp [regInsert, regLookup]
  | cons e rest ih =>
      obtain ⟨k', v'⟩ := e
      by_cases h : k' = k
      · simp [regInsert, h, regLookup]
      · simp [regInsert, h, regLookup, ih]

theorem regLookup_regInsert_ne (acc : Registry) (k q : String) (v : Printer) (h : q ≠ k) :
    regLookup (regInsert acc k v) q = regLookup acc q := by
  have hkq : ¬ k = q := fun hh => h hh.symm
  induction acc with
  | nil => simp [regInsert, regLookup, hkq]
  | cons e rest ih =>
      obtain ⟨k', v'⟩ := e
      by_cases hk : k' = k
      · rw [regInsert, if_pos hk, regLookup, regLookup, if_neg hkq,
          if_neg (fun hh => hkq (hk.symm.trans hh))]
      · rw [regInsert, if_neg hk, regLookup, regLookup]
        by_cases hq : k' = q
        · rw [if_pos hq, if_pos hq]
        · rw [if_neg hq, if_neg hq]
          exact ih

theorem buildFrom_lookup_not_mem (rs : List Printer) (acc : Registry) (k : String)
    (hk : k ∉ idsOfNonEmpty rs) :
    regLookup (buildRegistryFrom acc rs) k = regLookup acc k := by
  induction rs generalizing acc with
  | nil => rfl
  | cons p rest ih =>
      by_cases hp : p.name = ""
      · have hstep : buildRegistryFrom acc (p :: rest) = buildRegistryFrom acc rest := by
          simp [buildRegistryFrom, List.foldl_cons, hp]
        rw [hstep]
        rw [idsOfNonEmpty, if_pos hp] at hk
        exact ih acc hk
      · have hstep : buildRegistryFrom acc (p :: rest)
            = buildRegistryFrom (regInsert acc p.gcpID p) rest := by
          simp [buildRegistryFrom, List.foldl_cons, hp]
        rw [idsOfNonEmpty, if_neg hp] at hk
        rw [hstep, ih _ (fun hm => hk (List.mem_cons_of_mem _ hm)),
          regLookup_regInsert_ne _ _ _ _
            (fun he => hk (by rw [he]; exact List.mem_cons_self _ _))]

theorem buildFrom_lookup_mem (rs : List Printer) (acc : Registry) (p : Printer)
    (hp : p ∈ rs) (hname : p.name ≠ "") (hnd : (idsOfNonEmpty rs).Nodup) :
    regLookup (buildRegistryFrom acc rs) p.gcpID = some p := by
  induction rs generalizing acc with
  | nil => simp at hp
  | cons q rest ih =>
      rcases List.mem_cons.mp hp with rfl | hp'
      · have hstep : buildRegistryFrom acc (p :: rest)
            = buildRegistryFrom (regInsert acc p.gcpID p) rest := by
          simp [buildRegistryFrom, List.foldl_cons, hname]
        rw [idsOfNonEmpty, if_neg hname] at hnd
        have hnotmem : p.gcpID ∉ idsOfNonEmpty rest := (List.nodup_cons.mp hnd).1
        rw [hstep, buildFrom_lookup_not_mem rest _ _ hnotmem, regLookup_regInsert_self]
      · by_cases hq : q.name = ""
        · have hstep : buildRegistryFrom acc (q :: rest) = buildRegistryFrom acc rest := by
            simp [buildRegistryFrom, List.foldl_cons, hq]
          rw [idsOfNonEmpty, if_pos hq] at hnd
          rw [hstep]
          exact ih acc hp' hnd
        · have hstep : buildRegistryFrom acc (q :: rest)
              = buildRegistryFrom (regInsert acc q.gcpID q) rest := by
            simp [buildRegistryFrom, List.foldl_cons, hq]
          rw [idsOfNonEmpty, if_neg hq] at hnd
          rw [hstep]
          exact ih _ hp' (List.nodup_cons.mp hnd).2

theorem buildFrom_domain (rs : List Printer) (acc : Registry) (k : String)
    (h : (regLookup (buildRegistryFrom acc rs) k).isSome = true) :
    k ∈ idsOfNonEmpty rs ∨ (regLookup acc k).isSome = true := by
  induction rs generalizing acc with
  | nil => exact Or.inr h
  | cons q rest ih =>
      by_cases hq : q.name = ""
      · have hstep : buildRegistryFrom acc (q :: rest) = buildRegistryFrom acc rest := by
          simp [buildRegistryFrom, List.foldl_cons, hq]
        rw [hstep] at h
        rw [idsOfNonEmpty, if_pos hq]
        exact ih acc h
      · have hstep : buildRegistryFrom acc (q :: rest)
            = buildRegistryFrom (regInsert acc q.gcpID q) rest := by
          simp [buildRegistryFrom, List.foldl_cons, hq]
        rw [hstep] at h
        rw [idsOfNonEmpty, if_neg hq]
        rcases ih _ h with hm | hs
        · exact Or.inl (List.mem_cons_of_mem _ hm)
        · by_cases hk : k = q.gcpID
          · exact Or.inl (hk ▸ List.mem_cons_self _ _)
          · rw [regLookup_regInsert_ne _ _ _ _ hk] at hs
            exact Or.inr hs

/-! ### Claim theorems -/

/-- C1: `GetJobStats` is claimed to return as its first component the number
of terminated pipelines (`jobsDone + jobsError`) — but the source returns the
zero-initialised local `processed` without ever reading the counters: in a
state with one processed job the first component is `0`, not `1`. The second
component does equal the sum of the per-printer semaphore counts. -/
theorem getJobStats_processed_stuck_at_zero :
    statsState.jobsDone + statsState.jobsError = 1
  ∧ (GetJobStats statsState).1 = 0
  ∧ (GetJobStats statsState).2 = exPrinter.cupsJobSemCount := by
  refine ⟨rfl, rfl, rfl⟩

/-- C3: the intake producer sends `&job` where `job` is the single range
variable of the batch loop, so every job of a batch is delivered through the
same mutated cell rather than as a distinct immutable descriptor. On the batch
`[exJob, exJobB]` the cell holds `exJob` and then `exJobB` at the two sends,
and once the producer has advanced past the batch the cell — the target of the
first job's reference too — holds `exJobB ≠ exJob`: the descriptor observed
through the first reference has been mutated after creation. -/
theorem intake_range_variable_aliasing :
    (batchSend [exJob, exJobB] exJobZero).1 = [exJob, exJobB]
  ∧ (batchSend [exJob, exJobB] exJobZero).2 = exJobB
  ∧ exJobB ≠ exJob := by
  refine ⟨rfl, rfl, by decide⟩

/-- C8: `Quit` sends on `printerPollQuit` and then blocks receiving the
acknowledgement; the reconciler loop echoes that acknowledgement in its stop
branch and returns at once, so the loop's action sequence on any arrival list
containing a stop is exactly one pass per earlier tick followed by the
acknowledgement — arrivals after the stop produce no further pass, hence no
reconciliation pass begins after `Quit` returns. -/
theorem quit_stops_reconciler (pre post : List ReconcilerEvent)
    (hpre : ReconcilerEvent.stop ∉ pre) :
    ChanOp.sendPrinterPollQuit ∈ Quit
  ∧ syncPrintersPeriodically (pre ++ ReconcilerEvent.stop :: post)
      = pre.map (fun _ => ReconcilerAct.syncPass) ++ [ReconcilerAct.ackQuit] := by
  refine ⟨by simp [Quit], ?_⟩
  induction pre with
  | nil => rfl
  | cons e rest ih =>
      cases e with
      | tick =>
          simp only [List.cons_append, syncPrintersPeriodically, List.map_cons]
          exact congrArg _ (ih (fun h => hpre (List.mem_cons_of_mem _ h)))
      | stop => exact absurd (List.mem_cons_self _ _) hpre

/-- C8 witness: one tick before the stop, one arrival after it. -/
theorem quit_stops_reconciler_witness :
    ChanOp.sendPrinterPollQuit ∈ Quit
  ∧ syncPrintersPeriodically [ReconcilerEvent.tick, ReconcilerEvent.stop, ReconcilerEvent.tick]
      = [ReconcilerAct.syncPass, ReconcilerAct.ackQuit] :=
  quit_stops_reconciler [ReconcilerEvent.tick] [ReconcilerEvent.tick] (by decide)

/-- C10: `Quit` performs no send on `gcpJobPollQuit` (its only sends are the
`printerPollQuit` handshake; the sole send on `gcpJobPollQuit` in the source is
the echo inside `listenGCPJobs` itself, which runs only after a receive on that
same channel), so the intake consumer never sees a stop signal after `Quit`:
on any arrival list without a stop signal it is still running (no
acknowledgement echoed) and has spawned one pipeline per delivered job. -/
theorem quit_leaves_intake_running (evs : List IntakeEvent)
    (h : IntakeEvent.stopSignal ∉ evs) :
    ChanOp.sendGcpJobPollQuit ∉ Quit
  ∧ listenGCPJobs evs = (intakeJobs evs, false) := by
  refine ⟨by decide, ?_⟩
  induction evs with
  | nil => rfl
  | cons e rest ih =>
      cases e with
      | jobArrives j =>
          have hr := ih (fun hm => h (List.mem_cons_of_mem _ hm))
          simp only [listenGCPJobs, intakeJobs, hr]
      | stopSignal => exact absurd (List.mem_cons_self _ _) h

/-- C9: the owner identifier `processJob` hands to `cups.Print` is the job's
owner verbatim when `jobFullUsername` is set (the truncate-username flag
clear), and otherwise `strings.Split(owner, "@")[0]`, which is exactly the
prefix of the owner before its first `@` — the whole owner when it contains
no `@`. The second conjunct ties this to the pipeline: any `Print` submission
in a `processJob` trace carries exactly this projected owner. -/
theorem processJob_owner_projection (fullUsername : Bool) (owner : String)
    (env : Env) (job : Job) (pn path title ow opts : String) :
    (ownerProjected fullUsername owner =
       if fullUsername then owner else (owner.data.takeWhile (fun c => c ≠ '@')).asString)
  ∧ (Act.print pn path title ow opts ∈ (processJob env job).1 →
       ow = ownerProjected env.jobFullUsername job.ownerID) := by
  constructor
  · cases fullUsername
    · show ((goStringsSplit owner.data '@').headD []).asString
        = (owner.data.takeWhile (fun c => c ≠ '@')).asString
      rw [goStringsSplit_headD]
    · rfl
  · intro hmem
    rw [processJob] at hmem
    split at hmem
    · simp at hmem
    · split at hmem
      · simp at hmem
      · split at hmem
        · simp at hmem
        · split at hmem
          · simp at hmem
          · split at hmem
            · simp at hmem
            · rcases List.mem_append.mp hmem with h | h
              · rcases List.mem_append.mp h with h2 | h2
                · simp only [List.mem_cons, List.not_mem_nil, or_false] at h2
                  rcases h2 with h2 | h2 | h2 | h2
                  · exact Act.noConfusion h2
                  · exact Act.noConfusion h2
                  · exact Act.noConfusion h2
                  · rw [Act.print.injEq] at h2
                    exact h2.2.2.2.1
                · rcases pollLoop_act_shape _ _ _ _ _ _ h2 with ⟨x, y, z, hh⟩ | ⟨b, hh⟩ <;>
                    exact Act.noConfusion hh
              · split at h
                · simp at h
                · simp at h

/-- C9 witness: on the happy-path run with the truncation active, the `Print`
submission carries `alice`, the prefix of `alice@corp` before the `@`. -/
theorem processJob_owner_projection_witness :
    "alice" = ownerProjected exEnvOk.jobFullUsername exJob.ownerID :=
  (processJob_owner_projection false "x" exEnvOk exJob "HP" "/tmp/pdf1" "gcp:j1" "alice"
    "opts").2 (by decide)

/-- C2 counterexample: on the happy-path run the printer lookup succeeds, the
job is submitted to LPS and reaches the terminal Done projection, yet the
trace contains no per-printer semaphore operation at all — the semaphore is
not acquired before the submission, contrary to the claim. -/
theorem processJob_no_printer_semaphore_cex :
    (regLookup exEnvOk.gcpPrintersByGCPID exJob.gcpPrinterID).isSome = true
  ∧ Act.print "HP" "/tmp/pdf1" "gcp:j1" "alice" "opts" ∈ (processJob exEnvOk exJob).1
  ∧ (processJob exEnvOk exJob).2 = .terminal .jobDone
  ∧ ((processJob exEnvOk exJob).1.all fun a => !a.isPrinterSemOp) = true := by
  refine ⟨rfl, by decide, rfl, by decide⟩

/-- C2 amended: `processJob` never performs any operation on the per-printer
`CUPSJobSemaphore` — no action of any invocation's trace is a per-printer
semaphore acquire or release, so the per-printer capacity does not bound the
jobs in flight between ticket fetch and terminal report; the semaphore keeps
whatever count it was created with. -/
theorem processJob_no_printer_semaphore (env : Env) (job : Job) (a : Act)
    (ha : a ∈ (processJob env job).1) : a.isPrinterSemOp = false := by
  rw [processJob] at ha
  split at ha
  · simp only [List.mem_cons, List.not_mem_nil, or_false] at ha
    rcases ha with rfl | rfl <;> rfl
  · split at ha
    · simp only [List.mem_cons, List.not_mem_nil, or_false] at ha
      rcases ha with rfl | rfl <;> rfl
    · split at ha
      · simp only [List.mem_cons, List.not_mem_nil, or_false] at ha
        rcases ha with rfl | rfl <;> rfl
      · split at ha
        · simp only [List.mem_cons, List.not_mem_nil, or_false] at ha
          rcases ha with rfl | rfl | rfl | rfl <;> rfl
        · split at ha
          · simp only [List.mem_cons, List.not_mem_nil, or_false] at ha
            rcases ha with rfl | rfl | rfl | rfl | rfl | rfl <;> rfl
          · rcases List.mem_append.mp ha with h | h
            · rcases List.mem_append.mp h with h2 | h2
              · simp only [List.mem_cons, List.not_mem_nil, or_false] at h2
                rcases h2 with rfl | rfl | rfl | rfl <;> rfl
              · rcases pollLoop_act_shape _ _ _ _ _ _ h2 with ⟨x, y, z, rfl⟩ | ⟨b, rfl⟩ <;> rfl
            · split at h
              · simp at h
              · simp only [List.mem_cons, List.not_mem_nil, or_false] at h
                rcases h with rfl
                rfl

/-- C2 amended witness: on the happy-path run the download-semaphore acquire
is in the trace, and it is not a per-printer semaphore operation. -/
theorem processJob_no_printer_semaphore_witness :
    Act.isPrinterSemOp Act.downloadAcquire = false :=
  processJob_no_printer_semaphore exEnvOk exJob Act.downloadAcquire (by decide)

/-- C5: on a pass with a non-nil diff list, the published registry holds
exactly the nonempty `applyDiff` results: every nonempty result is found under
its remote id (first conjunct), every key of the published registry is the
remote id of some nonempty result (second conjunct), the empty-emission cases
are precisely Delete (success or failure), Register with a `GetPPD` failure
and Register with an RPS `Register` failure (third to fifth conjuncts), and
the remote id of a diff that emitted empty — absent from the nonempty-result
ids — is absent from the published registry (sixth conjunct). The nodup
hypothesis reflects that `DiffPrinters` emits one diff per printer. -/
theorem syncPrinters_publishes_nonempty_results (cupsQueueSize : Nat) (registry : Registry)
    (cupsList : List Printer) (ds : List (PrinterDiff × DiffEnv))
    (hnd : (idsOfNonEmpty (ds.map fun de => applyDiff cupsQueueSize de.2 de.1)).Nodup) :
    (∀ p ∈ ds.map fun de => applyDiff cupsQueueSize de.2 de.1, p.name ≠ "" →
       regLookup (syncPrinters cupsQueueSize registry (.ok cupsList) (some ds)) p.gcpID
         = some p)
  ∧ (∀ k, (regLookup (syncPrinters cupsQueueSize registry (.ok cupsList) (some ds)) k).isSome
        = true →
       k ∈ idsOfNonEmpty (ds.map fun de => applyDiff cupsQueueSize de.2 de.1))
  ∧ (∀ env diff, diff.operation = .deletePrinter →
       applyDiff cupsQueueSize env diff = emptyPrinter)
  ∧ (∀ env diff e, diff.operation = .registerPrinter → env.getPPD = .error e →
       applyDiff cupsQueueSize env diff = emptyPrinter)
  ∧ (∀ env diff e, diff.operation = .registerPrinter → env.registerResult = .error e →
       applyDiff cupsQueueSize env diff = emptyPrinter)
  ∧ (∀ de ∈ ds, applyDiff cupsQueueSize de.2 de.1 = emptyPrinter →
       de.1.printer.gcpID
           ∉ idsOfNonEmpty (ds.map fun de2 => applyDiff cupsQueueSize de2.2 de2.1) →
       regLookup (syncPrinters cupsQueueSize registry (.ok cupsList) (some ds))
         de.1.printer.gcpID = none) := by
  have hsync : syncPrinters cupsQueueSize registry (.ok cupsList) (some ds)
      = buildRegistryFrom [] (ds.map fun de => applyDiff cupsQueueSize de.2 de.1) := rfl
  refine ⟨?_, ?_, ?_, ?_, ?_, ?_⟩
  · intro p hp hpn
    rw [hsync]
    exact buildFrom_lookup_mem _ _ _ hp hpn hnd
  · intro k hk
    rw [hsync] at hk
    rcases buildFrom_domain _ _ _ hk with hm | hs
    · exact hm
    · simp [regLookup] at hs
  · intro env diff hop
    simp [applyDiff, hop]
  · intro env diff e hop hppd
    simp [applyDiff, hop, hppd]
  · intro env diff e hop hreg
    cases hppd : env.getPPD with
    | error e2 => simp [applyDiff, hop, hppd]
    | ok ppd => simp [applyDiff, hop, hppd, hreg]
  · intro de hde hempty hnot
    rw [hsync]
    cases hlook : regLookup
        (buildRegistryFrom [] (ds.map fun de2 => applyDiff cupsQueueSize de2.2 de2.1))
        de.1.printer.gcpID with
    | none => rfl
    | some p =>
        have hmem : de.1.printer.gcpID
            ∈ idsOfNonEmpty (ds.map fun de2 => applyDiff cupsQueueSize de2.2 de2.1) := by
          rcases buildFrom_domain _ _ _ (by rw [hlook]; rfl) with hm | hs
          · exact hm
          · simp [regLookup] at hs
        exact absurd hmem hnot

/-- C5 witness: on the two-diff pass the successful Register's printer is
published under its assigned id `rNew` with the semaphore capacity set to the
configured queue size, and the failed Delete's id `r7` is absent. -/
theorem syncPrinters_publishes_nonempty_results_witness :
    regLookup (syncPrinters 2 [] (.ok []) (some exDiffs)) "rNew"
      = some { name := "HP", gcpID := "rNew", capsHash := "h1",
               cupsJobSemCount := 0, cupsJobSemCapacity := 2 }
  ∧ regLookup (syncPrinters 2 [] (.ok []) (some exDiffs)) "r7" = none :=
  ⟨(syncPrinters_publishes_nonempty_results 2 [] [] exDiffs (by decide)).1
      { name := "HP", gcpID := "rNew", capsHash := "h1",
        cupsJobSemCount := 0, cupsJobSemCapacity := 2 } (by decide) (by decide),
   (syncPrinters_publishes_nonempty_results 2 [] [] exDiffs (by decide)).2.2.2.2.2
      (exDiffDel, exEnvDel) (by decide) (by decide) (by decide)⟩

/-- C6: over any sequence of successfully observed (status, message) pairs,
the polling loop's `Control` reports are exactly the specification sequence
"report the projected pair iff it differs from the last reported pair, stop at
the first non-InProgress projection" (first conjunct, with the spec side
written as `specReportSequence`); the first observation is always reported
because the initial pair is empty and no projected status string is empty
(second conjunct); all reports before the last carry the InProgress status, so
no second terminal status is ever reported after Done or Error (third
conjunct); and the loop's behaviour is unchanged by anything after the first
non-InProgress observation, at which it terminates (fourth conjunct). -/
theorem processJob_status_reporting (jid : String) (cid : Nat)
    (obs : List (GCPStatus × String)) (st : GCPStatus) (msg : String)
    (tl : List (GCPStatus × String)) (obsAll pre : List PollObs) (x : PollObs)
    (rest : List PollObs) :
    controlsOf (pollLoop jid cid "" "" (obs.map Except.ok)).1 = specReportSequence ("", "") obs
  ∧ specReportSequence ("", "") ((st, msg) :: tl) ≠ []
  ∧ (∀ c ∈ (controlsOf (pollLoop jid cid "" "" obsAll).1).dropLast,
        c.1 = gcpStatusStr .jobInProgress)
  ∧ ((∀ o ∈ pre, isInProgressObs o = true) → isInProgressObs x = false →
        pollLoop jid cid "" "" (pre ++ x :: rest) = pollLoop jid cid "" "" (pre ++ [x])) :=
  ⟨pollLoop_controls_spec obs jid cid "" "",
   specReportSequence_first st msg tl,
   pollLoop_controls_dropLast obsAll jid cid "" "",
   pollLoop_stops_at_first_terminal pre x rest jid cid "" ""⟩

/-- C6 witness: with one InProgress observation before a terminal Done one,
appending a further observation after the terminal one does not change the
loop's run, and the concrete report sequence matches the specification. -/
theorem processJob_status_reporting_witness :
    controlsOf (pollLoop "j1" 5 "" ""
        ([(GCPStatus.jobInProgress, "q"), (GCPStatus.jobDone, "")].map Except.ok)).1
      = specReportSequence ("", "") [(GCPStatus.jobInProgress, "q"), (GCPStatus.jobDone, "")]
  ∧ pollLoop "j1" 5 "" ""
        ([Except.ok (GCPStatus.jobInProgress, "q")]
          ++ Except.ok (GCPStatus.jobDone, "") :: [Except.ok (GCPStatus.jobDone, "x")])
      = pollLoop "j1" 5 "" ""
        ([Except.ok (GCPStatus.jobInProgress, "q")] ++ [Except.ok (GCPStatus.jobDone, "")]) :=
  ⟨(processJob_status_reporting "j1" 5 [(GCPStatus.jobInProgress, "q"), (GCPStatus.jobDone, "")]
      .jobDone "" [] [] [] (.error "") []).1,
   (processJob_status_reporting "j1" 5 [] .jobDone "" [] []
      [Except.ok (GCPStatus.jobInProgress, "q")] (Except.ok (GCPStatus.jobDone, ""))
      [Except.ok (GCPStatus.jobDone, "x")]).2.2.2 (by decide) (by decide)⟩

/-- C7: every terminating `processJob` path calls `incrementJobsProcessed`
exactly once — the increment sequence of a trace is empty exactly while the
invocation is still polling, is `[true]` exactly on the terminal Done
projection, and is `[false]` on every error path and the terminal Error
projection (a terminal InProgress exit is impossible); and the counters are
monotonically non-decreasing under any sequence of increments. -/
theorem processJob_increments_once (env : Env) (job : Job) (pm : PMState) (bs : List Bool) :
    incrementsOf (processJob env job).1 = expectedIncrements (processJob env job).2
  ∧ (processJob env job).2 ≠ .terminal .jobInProgress
  ∧ pm.jobsDone ≤ (bs.foldl incrementJobsProcessed pm).jobsDone
  ∧ pm.jobsError ≤ (bs.foldl incrementJobsProcessed pm).jobsError := by
  refine ⟨?_, ?_, (foldl_increment_mono bs pm).1, (foldl_increment_mono bs pm).2⟩
  · rcases hreg : regLookup env.gcpPrintersByGCPID job.gcpPrinterID with _ | printer
    · simp only [processJob, hreg]
      rfl
    · rcases ht : env.ticketResult with e | opts
      · simp only [processJob, hreg, ht]
        rfl
      · rcases htf : env.tempFileResult with e | pdfPath
        · simp only [processJob, hreg, ht, htf]
          rfl
        · rcases hdl : env.downloadResult with e | u
          · simp only [processJob, hreg, ht, htf, hdl]
            rfl
          · rcases hpr : env.printResult with e | cupsJobID
            · simp only [processJob, hreg, ht, htf, hdl, hpr]
              rfl
            · simp only [processJob, hreg, ht, htf, hdl, hpr]
              rw [incrementsOf_append, incrementsOf_append]
              have h1 : incrementsOf [Act.downloadAcquire, Act.downloadRelease,
                  Act.closeFile pdfPath,
                  Act.print printer.name pdfPath ("gcp:" ++ job.gcpJobID)
                    (ownerProjected env.jobFullUsername job.ownerID) opts] = [] := rfl
              rw [h1, List.nil_append]
              have h2 : incrementsOf
                  (if (pollLoop job.gcpJobID cupsJobID "" "" env.statuses).2
                      = ExitPath.stillPolling
                   then [] else [Act.removeTempFile pdfPath]) = [] := by
                split <;> rfl
              rw [h2, List.append_nil]
              exact pollLoop_increments _ _ _ _ _
  · rcases hreg : regLookup env.gcpPrintersByGCPID job.gcpPrinterID with _ | printer
    · simp [processJob, hreg]
    · rcases ht : env.ticketResult with e | opts
      · simp [processJob, hreg, ht]
      · rcases htf : env.tempFileResult with e | pdfPath
        · simp [processJob, hreg, ht, htf]
        · rcases hdl : env.downloadResult with e | u
          · simp [processJob, hreg, ht, htf, hdl]
          · rcases hpr : env.printResult with e | cupsJobID
            · simp [processJob, hreg, ht, htf, hdl, hpr]
            · simp only [processJob, hreg, ht, htf, hdl, hpr]
              show (pollLoop job.gcpJobID cupsJobID "" "" env.statuses).2
                ≠ .terminal .jobInProgress
              rcases pollLoop_exit_shape env.statuses job.gcpJobID cupsJobID "" ""
                with h | h | ⟨st, hst, h⟩
              · rw [h]; simp
              · rw [h]; simp
              · rw [h]
                intro hc
                exact hst (by injection hc)

/-- C4 counterexample: on the run whose temp file is created at `/tmp/pdf2`
and whose payload download then fails, the invocation terminates on the
download-failure exit with no temp-file removal anywhere in its trace — the
deferred `os.Remove` is installed only after a successful download, so this
exit path leaks the temp file, contrary to the claim. -/
theorem tempfile_leak_on_download_failure :
    exEnvDl.tempFileResult = .ok "/tmp/pdf2"
  ∧ (processJob exEnvDl exJob).2 = .downloadFail
  ∧ ((processJob exEnvDl exJob).1.all fun a => !a.isRemove) = true := by
  refine ⟨rfl, rfl, by decide⟩

/-- C4 amended: once the temp file has been closed and its deferred removal
scheduled (which happens exactly after a successful download), every
terminating exit path of the invocation removes the temp file; on the
download-failure exit path the removal was never scheduled and the trace
contains no temp-file removal. -/
theorem processJob_tempfile_cleanup (env : Env) (job : Job) (path : String) :
    (Act.closeFile path ∈ (processJob env job).1 →
       (processJob env job).2 ≠ .stillPolling →
       Act.removeTempFile path ∈ (processJob env job).1)
  ∧ ((processJob env job).2 = .downloadFail →
       ∀ q, Act.removeTempFile q ∉ (processJob env job).1) := by
  rcases hreg : regLookup env.gcpPrintersByGCPID job.gcpPrinterID with _ | printer
  · exact ⟨fun hc _ => by simp [processJob, hreg] at hc,
      fun hx => by simp [processJob, hreg] at hx⟩
  · rcases ht : env.ticketResult with e | opts
    · exact ⟨fun hc _ => by simp [processJob, hreg, ht] at hc,
        fun hx => by simp [processJob, hreg, ht] at hx⟩
    · rcases htf : env.tempFileResult with e | pdfPath
      · exact ⟨fun hc _ => by simp [processJob, hreg, ht, htf] at hc,
          fun hx => by simp [processJob, hreg, ht, htf] at hx⟩
      · rcases hdl : env.downloadResult with e | u
        · refine ⟨fun hc _ => by simp [processJob, hreg, ht, htf, hdl] at hc,
            fun _ q hq => ?_⟩
          simp only [processJob, hreg, ht, htf, hdl, List.mem_cons, List.not_mem_nil,
            or_false] at hq
          rcases hq with h | h | h | h <;> exact Act.noConfusion h
        · rcases hpr : env.printResult with e | cupsJobID
          · refine ⟨fun hc _ => ?_, fun hx => by simp [processJob, hreg, ht, htf, hdl, hpr] at hx⟩
            simp only [processJob, hreg, ht, htf, hdl, hpr, List.mem_cons, List.not_mem_nil,
              or_false] at hc
            have hpath : path = pdfPath := by
              rcases hc with h | h | h | h | h | h
              · exact Act.noConfusion h
              · exact Act.noConfusion h
              · injection h
              · exact Act.noConfusion h
              · exact Act.noConfusion h
              · exact Act.noConfusion h
            subst hpath
            simp [processJob, hreg, ht, htf, hdl, hpr]
          · constructor
            · intro hc hterm
              simp only [processJob, hreg, ht, htf, hdl, hpr] at hc hterm ⊢
              have hpath : path = pdfPath := by
                rcases List.mem_append.mp hc with h | h
                · rcases List.mem_append.mp h with h2 | h2
                  · simp only [List.mem_cons, List.not_mem_nil, or_false] at h2
                    rcases h2 with h2 | h2 | h2 | h2
                    · exact Act.noConfusion h2
                    · exact Act.noConfusion h2
                    · injection h2
                    · exact Act.noConfusion h2
                  · rcases pollLoop_act_shape _ _ _ _ _ _ h2 with ⟨x, y, z, hh⟩ | ⟨b, hh⟩ <;>
                      exact Act.noConfusion hh
                · by_cases hb : (pollLoop job.gcpJobID cupsJobID "" "" env.statuses).2
                      = ExitPath.stillPolling
                  · rw [if_pos hb] at h
                    simp at h
                  · rw [if_neg hb] at h
                    simp only [List.mem_cons, List.not_mem_nil, or_false] at h
                    injection h
              subst hpath
              refine List.mem_append.mpr (Or.inr ?_)
              rw [if_neg hterm]
              simp
            · intro hx
              simp only [processJob, hreg, ht, htf, hdl, hpr] at hx
              rcases pollLoop_exit_shape env.statuses job.gcpJobID cupsJobID "" ""
                  with h | h | ⟨st, _, h⟩
                <;> rw [h] at hx <;> exact ExitPath.noConfusion hx

/-- C4 amended witness: on the happy-path run the file is closed, the run
terminates, and the temp file is removed. -/
theorem processJob_tempfile_cleanup_witness :
    Act.removeTempFile "/tmp/pdf1" ∈ (processJob exEnvOk exJob).1 :=
  (processJob_tempfile_cleanup exEnvOk exJob "/tmp/pdf1").1 (by decide) (by decide)

/-- C10 witness: two jobs arrive and no stop signal does. -/
theorem quit_leaves_intake_running_witness :
    ChanOp.sendGcpJobPollQuit ∉ Quit
  ∧ listenGCPJobs [IntakeEvent.jobArrives exJob, IntakeEvent.jobArrives exJobB]
      = ([exJob, exJobB], false) :=
  quit_leaves_intake_running [IntakeEvent.jobArrives exJob, IntakeEvent.jobArrives exJobB]
    (by decide)

end CloudPrintConnector
